import Mathlib

/-!
Verification of `japan_road_traffic_analysis` (gpx_route_status package).

Shallow embedding of the Python source under `src/gpx_route_status/` into
Lean 4. Pure functions become Lean functions; Python exceptions become
`Except`; JSON dictionaries become association lists with `Option`-valued
cells (a key that is absent or whose value is null reads back as `none`).
Network calls are passed in as function parameters (the code treats the
HTTP providers as black-box data sources).
-/

namespace GpxRouteStatus

/-! ## utils.sample_points

The source is `coordinates[::interval]`, i.e. an extended Python slice with
an arbitrary integer step. Python semantics:
  - step 0 raises `ValueError: slice step cannot be zero`;
  - step k > 0 takes indices 0, k, 2k, ... below the length;
  - step k < 0 takes indices L-1, L-1+k, L-1+2k, ... down to 0.
-/

/-- Elements at indices 0, s, 2s, ... of `xs` (the positive-step slice
`xs[::s]`). For the degenerate argument `s = 0` this walks index by index;
the caller `pySliceStep` never reaches it with `s = 0`. -/
def posStride {α : Type} (s : Nat) : List α → List α
  | [] => []
  | x :: rest => x :: posStride s (rest.drop (s - 1))
termination_by xs => xs.length
decreasing_by
  simp only [List.length_drop, List.length_cons]
  omega

/-- Python extended slice `xs[::step]` for an arbitrary integer step. -/
def pySliceStep {α : Type} (xs : List α) (step : Int) : Except String (List α) :=
  if step = 0 then .error "ValueError: slice step cannot be zero"
  else if 0 < step then .ok (posStride step.toNat xs)
  else .ok (posStride (-step).toNat xs.reverse)

/-- `utils.sample_points(coordinates, interval)`: the body is
`return coordinates[::interval]`. -/
def sample_points {α : Type} (coordinates : List α) (interval : Int) :
    Except String (List α) :=
  pySliceStep coordinates interval

/-! ## postprocessing.clean_road_names

`clean_road_names` applies `unicodedata.normalize("NFKC", road_name)` and
then `re.search("\\d+号", ...)`, returning the matched substring when the
search succeeds and the normalized string otherwise.

NFKC is modelled as a character-wise translation through a table holding
the entries relevant to this program (full-width digits and the
ideographic space); characters outside the table are fixed points, which
is consistent with NFKC's guarantee that normalization is idempotent and
that its outputs here (ASCII digits, ASCII space, `号`) are NFKC-stable.
`\d` is modelled as the ASCII-digit class; after the modelled NFKC pass
the digits this program manipulates are ASCII. -/

/-- Character-wise NFKC translation table (the entries this program can
meet): full-width digits to ASCII digits, ideographic space to space. -/
def nfkcTable : List (Char × Char) :=
  [('０', '0'), ('１', '1'), ('２', '2'), ('３', '3'), ('４', '4'),
   ('５', '5'), ('６', '6'), ('７', '7'), ('８', '8'), ('９', '9'),
   ('　', ' ')]

/-- NFKC on one character: translate through the table, identity elsewhere. -/
def nfkcChar (c : Char) : Char :=
  ((nfkcTable.find? (fun p => p.1 = c)).map (fun p => p.2)).getD c

/-- `unicodedata.normalize("NFKC", s)` under the character-wise model. -/
def nfkcNormalize (s : String) : String :=
  String.mk (s.toList.map nfkcChar)

/-- `re.search("\d+号", ...)` attempted at one position: a non-empty
maximal ASCII-digit run immediately followed by `号`. (Backtracking from
the greedy `\d+` cannot help: shortening the run leaves a digit where `号`
is required.) -/
def matchRoadNumAt (cs : List Char) : Option (List Char) :=
  let run := cs.takeWhile (fun c => c.isDigit)
  if run.isEmpty then none
  else
    match cs.drop run.length with
    | c :: _ => if c = '号' then some (run ++ ['号']) else none
    | [] => none

/-- `re.search("\d+号", s)`: leftmost match position wins. -/
def searchRoadNum : List Char → Option (List Char)
  | [] => none
  | c :: rest =>
    match matchRoadNumAt (c :: rest) with
    | some m => some m
    | none => searchRoadNum rest

/-- `postprocessing.clean_road_names`: NFKC-normalize, then return the
first `\d+号` match if any, else the normalized string. -/
def clean_road_names (road_name : String) : String :=
  let t := nfkcNormalize road_name
  match searchRoadNum t.toList with
  | some m => String.mk m
  | none => t

/-! ## Feed features and postprocessing.filter_traffic_status_by_road

A traffic-feed feature is modelled by its `properties` JSON object: an
association list whose cells are `Option String` (`none` both for a key
that is absent and for a JSON null value, matching how `pydash.map_` and
pandas read them back). -/

structure Feature where
  properties : List (String × Option String)
deriving DecidableEq

/-- Value of `properties.<key>` as pydash/pandas sees it (`none` when the
key is absent or null). -/
def getProp (f : Feature) (key : String) : Option String :=
  (f.properties.find? (fun kv => kv.1 = key)).bind (fun kv => kv.2)

/-- `pydash.map_(features, "properties.r")` followed by the
`clean_road_names` comprehension: `None` for a feature lacking
`properties.r` makes `clean_road_names(None)` raise a `TypeError`
(modelled as `none` for the whole pass). -/
def collectRoadNames : List Feature → Option (List String)
  | [] => some []
  | f :: fs =>
    match getProp f "r" with
    | none => none
    | some r =>
      match collectRoadNames fs with
      | none => none
      | some rs => some (r :: rs)

/-- `postprocessing.filter_traffic_status_by_road(road_number, traffic_data)`
over `traffic_data["features"]`. The road number itself is compared as
given: only the feed-side names go through `clean_road_names`. -/
def filter_traffic_status_by_road (road_number : String) (features : List Feature) :
    Except String (List Feature) :=
  match collectRoadNames features with
  | none => .error "TypeError: clean_road_names(None)"
  | some names =>
    let cleaned := names.map clean_road_names
    .ok (((features.zip cleaned).filter (fun fv => road_number = fv.2)).map
      (fun fv => fv.1))

/-! ## postprocessing.filter_closed_roads

The pandas `DataFrame` built from the features' `properties` is modelled
row-wise: each row is the property list with the fixed useless columns
dropped and the short codes renamed. A cell reads back `none` when its
key is absent (pandas `NaN`) or null. `df.empty` is true when there are
no rows or no columns (a DataFrame of shape `(n, 0)` — records whose
properties all drop away — counts as empty). Accessing the
`restriction_description` column when no record contributed an `rd` key
is a pandas `KeyError`, modelled as `.error`. -/

def uselessCols : List String := ["cs", "l", "lo", "pd", "rn", "j"]

/-- The `column_mapping` rename of `filter_closed_roads`. -/
def renameCol (k : String) : String :=
  if k = "c" then "work_type"
  else if k = "d" then "direction"
  else if k = "i" then "location_description"
  else if k = "p" then "coordinates"
  else if k = "r" then "route_name"
  else if k = "rd" then "restriction_description"
  else k

/-- One table row: the feature's properties after the drop and rename. -/
def transformProps (props : List (String × Option String)) :
    List (String × Option String) :=
  (props.filter (fun kv => !(uselessCols.contains kv.1))).map
    (fun kv => (renameCol kv.1, kv.2))

/-- Cell of a row (`none` for an absent key or a null value). -/
def getCell (row : List (String × Option String)) (col : String) : Option String :=
  (row.find? (fun kv => kv.1 = col)).bind (fun kv => kv.2)

/-- Whether a row contributes the column `col` to the DataFrame. -/
def hasCol (row : List (String × Option String)) (col : String) : Bool :=
  (row.find? (fun kv => kv.1 = col)).isSome

/-- The complete-closure marker string. -/
def completeClosureMarker : String := "通行止"

/-- `postprocessing.filter_closed_roads(closed_roads)`: build the table of
`properties`, drop/rename columns, and if the frame is non-empty filter to
non-null `restriction_description` and split out the rows equal to the
complete-closure marker. -/
def filter_closed_roads (closed_roads : List Feature) :
    Except String (List (List (String × Option String)) ×
      List (List (String × Option String))) :=
  if (closed_roads.map (fun f => transformProps f.properties)).isEmpty ||
      (closed_roads.map (fun f => transformProps f.properties)).all
        (fun r => r.isEmpty) then .ok ([], [])
  else if (closed_roads.map (fun f => transformProps f.properties)).any
      (fun r => hasCol r "restriction_description") then
    .ok ((closed_roads.map (fun f => transformProps f.properties)).filter
        (fun r => (getCell r "restriction_description").isSome),
      ((closed_roads.map (fun f => transformProps f.properties)).filter
        (fun r => (getCell r "restriction_description").isSome)).filter
        (fun r => getCell r "restriction_description" == some completeClosureMarker))
  else .error "KeyError: restriction_description"

/-! ## get_roads_from_gpx_file.get_osm_road_info / get_road_numbers

`pydash.map_(data["elements"], "tags.ref")` returns one entry per element,
`None` for an element without the tag; an OSM element is therefore
modelled by its optional `ref` value. The Python truthiness test
`if road_numbers:` checks the LIST, and `f"{road_numbers[0]}号"` formats
`None` as the string "None". -/

structure OsmElement where
  ref : Option String
deriving DecidableEq

/-- Python f-string rendering of an optional value. -/
def pyFormatOpt : Option String → String
  | some s => s
  | none => "None"

/-- `get_osm_road_info(road_name)` applied to the service's `elements`
array (the HTTP call is the black-box producing `elements`). -/
def get_osm_road_info (road_name : String) (elements : List OsmElement) :
    String × String :=
  match elements.map (fun e => e.ref) with
  | [] => (road_name, road_name)
  | n :: _ => (road_name, pyFormatOpt n ++ "号")

/-- `get_road_numbers(road_names)`: one sequential lookup per name. -/
def get_road_numbers (osm : String → List OsmElement) (road_names : List String) :
    List (String × String) :=
  road_names.map (fun road => get_osm_road_info road (osm road))

/-! ## pipeline.get_closed_roads: the per-region traffic loop

`get_road_status_by_prefecture_code` raises `httpx.HTTPStatusError` on a
non-200 response (`get_traffic_status.get_map_data`); the fetch is passed
in as an `Except`-valued function. The pipeline loop
`for pref_code in prefs: ... get_road_status_by_prefecture_code(...)`
has no exception handling: the first failure propagates. -/

/-- Python `str.replace`: replace the non-overlapping occurrences of
`pattern`, scanning left to right. Structural recursion on a fuel
that starts at the list length (each step consumes at least one
character, so the fuel never runs out before the list does). -/
def replaceAllAux (pattern repl : List Char) : Nat → List Char → List Char
  | _, [] => []
  | 0, cs => cs
  | fuel + 1, c :: rest =>
    if pattern ≠ [] ∧ (c :: rest).take pattern.length = pattern then
      repl ++ replaceAllAux pattern repl fuel ((c :: rest).drop pattern.length)
    else
      c :: replaceAllAux pattern repl fuel rest

def replaceAll (pattern repl cs : List Char) : List Char :=
  replaceAllAux pattern repl cs.length cs

/-- `pref_code.replace("JP-", "")`. -/
def stripRegionCode (s : String) : String :=
  String.mk (replaceAll "JP-".toList [] s.toList)

/-- The `for pref_code in prefs` loop of `pipeline.get_closed_roads`
(lines 61–65): sequential fetches, appending each result; an exception
propagates out of the loop. -/
def fetch_traffic_data (fetch : String → Except String (List Feature)) :
    List String → Except String (List (List Feature))
  | [] => .ok []
  | p :: rest =>
    match fetch (stripRegionCode p) with
    | .error e => .error e
    | .ok d =>
      match fetch_traffic_data fetch rest with
      | .error e => .error e
      | .ok ds => .ok (d :: ds)

/-- The matching stage of `pipeline.get_closed_roads` (lines 68–75): for
each canonical road number and each region's payload, extend the list of
matched features, then feed it onward. -/
def combine_closed_roads (road_numbers : List (String × String))
    (traffic_data : List (List Feature)) : Except String (List Feature) := do
  let groups ← road_numbers.mapM (fun rv =>
    traffic_data.mapM (fun data => filter_traffic_status_by_road rv.2 data))
  pure (groups.map List.flatten).flatten

/-- Fetch stage followed by matching stage, as `get_closed_roads` chains
them: a fetch failure escapes before any matching or combining happens. -/
def get_closed_roads_core (fetch : String → Except String (List Feature))
    (road_numbers : List (String × String)) (prefs : List String) :
    Except String (List Feature) :=
  match fetch_traffic_data fetch prefs with
  | .error e => .error e
  | .ok traffic_data => combine_closed_roads road_numbers traffic_data

/-! ## get_roads_from_gpx_file: geocode cache and fan-out

`aiocache.Cache(MEMORY, ttl=3600*24)`: an entry written at time `t₀` is
readable strictly before `t₀ + ttl` and gone afterwards. The HTTP reply
is `response.json()`, whose `address` object (`.get("address", {})`) is
an association list; coordinates are the cache key (`f"{lat},{lon}"` is
injective in the pair). Times are seconds as `Nat`. -/

/-- The reverse-geocode reply body: an optional `address` object. -/
structure AddressData where
  address : Option (List (String × String))
deriving DecidableEq

structure GeoCacheState where
  entries : List ((Int × Int) × Nat × List (String × String))
  fetchCount : Nat
deriving DecidableEq

def cacheTTL : Nat := 3600 * 24

/-- `cache.get(key)` at time `now`: the stored value while it is fresh,
`None` on a miss or after expiry. -/
def cacheGet (st : GeoCacheState) (key : Int × Int) (now : Nat) :
    Option (List (String × String)) :=
  match st.entries.find? (fun e => e.1 = key) with
  | some e => if now < e.2.1 + cacheTTL then some e.2.2 else none
  | none => none

/-- `fetch_address` + `cache.set`: one network call, extract the
`address` object (empty when missing), store it, bump the call counter. -/
def fetchAndCacheAddress (fetchFn : Int × Int → AddressData)
    (st : GeoCacheState) (p : Int × Int) (now : Nat) :
    List (String × String) × GeoCacheState :=
  let addr := (fetchFn p).address.getD []
  (addr, ⟨(p, now, addr) :: st.entries, st.fetchCount + 1⟩)

/-- `get_road_address(lat, lon)`: return the cached value when it is
truthy (`if cached_result:` — a cached empty address object is falsy and
falls through to a re-fetch), otherwise fetch and cache. -/
def get_road_address (fetchFn : Int × Int → AddressData) (st : GeoCacheState)
    (p : Int × Int) (now : Nat) : List (String × String) × GeoCacheState :=
  match cacheGet st p now with
  | some cached =>
    if cached.isEmpty then fetchAndCacheAddress fetchFn st p now
    else (cached, st)
  | none => fetchAndCacheAddress fetchFn st p now

/-- `get_multiple_road_addresses(coords)` = `asyncio.gather` over
`get_road_address` tasks. asyncio is cooperative: each task runs up to
its first real suspension point, which is the HTTP await inside
`fetch_address` (the in-memory cache get never suspends first), so every
task reads the cache as it was when the gather began; the `cache.set`
writes land only as the fetches complete. Hence each coordinate whose
initial lookup is falsy issues its own network call — duplicates
included — and the new entries are written afterwards. -/
def get_multiple_road_addresses (fetchFn : Int × Int → AddressData)
    (st : GeoCacheState) (coords : List (Int × Int)) (now : Nat) :
    List (List (String × String)) × GeoCacheState :=
  let outcomes := coords.map (fun p =>
    match cacheGet st p now with
    | some cached =>
      if cached.isEmpty then (p, (fetchFn p).address.getD [], true)
      else (p, cached, false)
    | none => (p, (fetchFn p).address.getD [], true))
  let newEntries := outcomes.filterMap
    (fun o => if o.2.2 then some (o.1, now, o.2.1) else none)
  (outcomes.map (fun o => o.2.1),
   ⟨newEntries.reverse ++ st.entries,
    st.fetchCount + (outcomes.filter (fun o => o.2.2)).length⟩)

/-! ## plot_route.plot_route_with_closed_sections: the forward scan

The scan is generic in the proximity test: `near a p` models
`geodesic(a[::-1], p).meters < distance_threshold` (the section endpoint
`a` arrives in (longitude, latitude) order and is reversed inside the
test; `p` is a route point in (latitude, longitude) order). -/

/-- The `for lat, lon in coords` loop body for one closed section, with
state `(start_found, end, accumulated points)`. Before the start is
found, a point near `start` — or near `end`, in which case `end` is
collapsed to `start` — sets `start_found`; once started every point is
accumulated and a point near the (possibly collapsed) end stops the scan
with `end_found`. Returns the accumulated points and `end_found`
(`end_found` implies `start_found` in the source, so the final
`start_found is True and end_found is True` test is `end_found`). -/
def scanLoop {P : Type} (near : P → P → Bool) (start : P) :
    List P → Bool → P → List P → List P × Bool
  | [], _, _, acc => (acc, false)
  | p :: rest, start_found, e, acc =>
    let se : Bool × P :=
      if start_found then (start_found, e)
      else
        let sf1 := if near start p then true else start_found
        if near e p then (true, start) else (sf1, e)
    if se.1 then
      let acc2 := acc ++ [p]
      if near se.2 p then (acc2, true)
      else scanLoop near start rest se.1 se.2 acc2
    else scanLoop near start rest se.1 se.2 acc

/-- The red ("Closed Road") traces `plot_route_with_closed_sections`
adds: sections are first filtered to those with exactly two endpoints,
then each is scanned over the full route; a trace is added only when the
scan found both a start and an end. -/
def plot_closed_traces {P : Type} (near : P → P → Bool) (coords : List P)
    (closed_sections : List (List P)) : List (List P) :=
  (closed_sections.filter (fun s => s.length == 2)).filterMap (fun s =>
    match s with
    | [st0, en0] =>
      let r := scanLoop near st0 coords false en0 []
      if r.2 then some r.1 else none
    | _ => none)

/-!
# Theorems
-/

theorem posStride_nil {α : Type} (s : Nat) : posStride s ([] : List α) = [] := by
  simp [posStride]

theorem posStride_cons {α : Type} (s : Nat) (x : α) (rest : List α) :
    posStride s (x :: rest) = x :: posStride s (rest.drop (s - 1)) := by
  simp [posStride]

/-- The slice `xs[::s]` (s ≥ 1) reads element `i` from index `i * s`. -/
theorem posStride_getElem? {α : Type} (s : Nat) (hs : 0 < s) :
    ∀ (xs : List α) (i : Nat), (posStride s xs)[i]? = xs[i * s]?
  | [], i => by simp [posStride_nil]
  | x :: rest, 0 => by simp [posStride_cons]
  | x :: rest, i + 1 => by
    rw [posStride_cons, List.getElem?_cons_succ]
    rw [posStride_getElem? s hs (rest.drop (s - 1)) i]
    rw [List.getElem?_drop]
    rw [Nat.succ_mul]
    rw [show i * s + s = (s - 1 + i * s) + 1 by omega]
    rw [List.getElem?_cons_succ]
termination_by xs _ => xs.length
decreasing_by simp only [List.length_drop, List.length_cons]; omega

/-- The slice `xs[::s]` (s ≥ 1) has exactly `⌈L / s⌉` elements. -/
theorem posStride_length {α : Type} (s : Nat) (hs : 0 < s) :
    ∀ xs : List α, (posStride s xs).length = (xs.length + s - 1) / s
  | [] => by
    rw [posStride_nil]
    simp only [List.length_nil]
    rw [Nat.zero_add, Nat.div_eq_of_lt (by omega)]
  | x :: rest => by
    rw [posStride_cons]
    simp only [List.length_cons]
    rw [posStride_length s hs (rest.drop (s - 1))]
    simp only [List.length_drop]
    rw [show rest.length + 1 + s - 1 = rest.length + s by omega]
    rw [Nat.add_div_right _ hs]
    rcases Nat.lt_or_ge rest.length (s - 1) with h | h
    · rw [Nat.sub_eq_zero_of_le (Nat.le_of_lt h)]
      rw [Nat.div_eq_of_lt (show 0 + s - 1 < s by omega)]
      rw [Nat.div_eq_of_lt (show rest.length < s by omega)]
    · rw [show rest.length - (s - 1) + s - 1 = rest.length by omega]
termination_by xs => xs.length
decreasing_by simp only [List.length_drop, List.length_cons]; omega

theorem posStride_one {α : Type} : ∀ xs : List α, posStride 1 xs = xs
  | [] => posStride_nil 1
  | x :: rest => by
    rw [posStride_cons]
    simp only [Nat.sub_self, List.drop_zero]
    rw [posStride_one rest]

/-- C8: for every positive stride `S` and coordinate sequence `xs`,
`sample_points` succeeds and returns exactly `⌈L / S⌉` points, the points
at indices `0, S, 2S, …` strictly below `L`, in their original order. -/
theorem sample_points_stride_spec {α : Type} (xs : List α) (S : Int)
    (hS : 0 < S) :
    ∃ r, sample_points xs S = .ok r ∧
      r.length = (xs.length + S.toNat - 1) / S.toNat ∧
      ∀ i : Nat, r[i]? = xs[i * S.toNat]? := by
  have hS0 : S ≠ 0 := by omega
  have hSt : 0 < S.toNat := by omega
  refine ⟨posStride S.toNat xs, ?_, ?_, ?_⟩
  · simp only [sample_points, pySliceStep, if_neg hS0, if_pos hS]
  · exact posStride_length S.toNat hSt xs
  · exact posStride_getElem? S.toNat hSt xs

/-- Witness for C8 at a concrete input: a 5-point list sampled at
stride 2 has `⌈5/2⌉ = 3` points, read from indices 0, 2, 4. -/
theorem sample_points_stride_spec_witness :
    ∃ r, sample_points [10, 20, 30, 40, 50] (2 : Int) = .ok r ∧
      r.length = ([10, 20, 30, 40, 50].length + (2 : Int).toNat - 1) / (2 : Int).toNat ∧
      ∀ i : Nat, r[i]? = [10, 20, 30, 40, 50][i * (2 : Int).toNat]? :=
  sample_points_stride_spec [10, 20, 30, 40, 50] 2 (by decide)

/-- C3 counterexample: a negative stride does not fail with any error —
`coordinates[::interval]` with a negative step slices in reverse, so
sampling `[0, 1, 2]` at stride `-1` succeeds with the reversed list. -/
theorem sample_points_negative_counterexample :
    sample_points [(0 : Nat), 1, 2] (-1) = Except.ok [2, 1, 0] ∧
      ∀ msg, sample_points [(0 : Nat), 1, 2] (-1) ≠ Except.error msg := by
  have hev : sample_points [(0 : Nat), 1, 2] (-1) = Except.ok [2, 1, 0] := by
    simp only [sample_points, pySliceStep]
    norm_num
    exact posStride_one _
  refine ⟨hev, ?_⟩
  intro msg h
  rw [hev] at h
  exact Except.noConfusion h

/-- C3 amended: sampling with stride 0 fails (Python `ValueError`, the
sampling step runs before any network call in
`get_roads_and_prefecture_codes`); a negative stride does not fail but
slices in reverse (stride `-1` returns the reversed sequence); a positive
stride at least the length of a non-empty sequence yields exactly the
single-element sequence holding the point at index 0. -/
theorem sample_points_edge_cases {α : Type} (x : α) (xs : List α)
    (S T : Int) (hS : 0 < S) (hlen : ((x :: xs).length : Int) ≤ S) (hT : T < 0) :
    sample_points (x :: xs) 0 = .error "ValueError: slice step cannot be zero"
    ∧ sample_points (x :: xs) S = .ok [x]
    ∧ (∃ r, sample_points (x :: xs) T = .ok r)
    ∧ sample_points (x :: xs) (-1) = .ok (x :: xs).reverse := by
  refine ⟨rfl, ?_, ?_, ?_⟩
  · have hS0 : S ≠ 0 := by omega
    simp only [sample_points, pySliceStep, if_neg hS0, if_pos hS]
    rw [posStride_cons]
    have hdrop : xs.drop (S.toNat - 1) = [] := by
      apply List.drop_eq_nil_of_le
      simp only [List.length_cons] at hlen
      omega
    rw [hdrop, posStride_nil]
  · have hT0 : T ≠ 0 := by omega
    have hTn : ¬ (0 < T) := by omega
    exact ⟨posStride (-T).toNat (x :: xs).reverse,
      by simp only [sample_points, pySliceStep, if_neg hT0, if_neg hTn]⟩
  · simp only [sample_points, pySliceStep]
    norm_num
    exact posStride_one _

/-- Witness for the C3 amended theorem at a concrete input. -/
theorem sample_points_edge_cases_witness :
    sample_points [(0 : Nat), 1, 2] 0 = .error "ValueError: slice step cannot be zero"
    ∧ sample_points [(0 : Nat), 1, 2] 5 = .ok [0]
    ∧ (∃ r, sample_points [(0 : Nat), 1, 2] (-2) = .ok r)
    ∧ sample_points [(0 : Nat), 1, 2] (-1) = .ok [(0 : Nat), 1, 2].reverse :=
  sample_points_edge_cases 0 [1, 2] 5 (-2) (by decide) (by decide) (by decide)

/-! ### Road-name normalization (C9, C1) -/

theorem nfkcTable_outputs_fixed : ∀ p ∈ nfkcTable, nfkcChar p.2 = p.2 := by
  decide

theorem nfkcChar_idem (c : Char) : nfkcChar (nfkcChar c) = nfkcChar c := by
  cases h : nfkcTable.find? (fun p => p.1 = c) with
  | none =>
    have hc : nfkcChar c = c := by unfold nfkcChar; rw [h]; rfl
    rw [hc]
    exact hc
  | some p =>
    have hc : nfkcChar c = p.2 := by unfold nfkcChar; rw [h]; rfl
    rw [hc]
    exact nfkcTable_outputs_fixed p (List.mem_of_find?_eq_some h)

theorem nfkcChar_of_isDigit (c : Char) (h : c.isDigit = true) :
    nfkcChar c = c := by
  unfold nfkcChar
  rw [List.find?_eq_none.mpr ?hnone]
  · rfl
  case hnone =>
    intro p hp
    simp only [decide_eq_true_eq]
    intro heq
    rw [← heq] at h
    simp only [nfkcTable, List.mem_cons, List.not_mem_nil, or_false] at hp
    rcases hp with rfl | rfl | rfl | rfl | rfl | rfl | rfl | rfl | rfl | rfl | rfl <;>
      exact absurd h (by decide)

theorem nfkcNormalize_idem (s : String) :
    nfkcNormalize (nfkcNormalize s) = nfkcNormalize s := by
  show String.mk ((s.toList.map nfkcChar).map nfkcChar) = String.mk (s.toList.map nfkcChar)
  rw [List.map_map]
  congr 1
  exact List.map_congr_left (fun a _ => nfkcChar_idem a)

theorem nfkcNormalize_fixed (m : List Char) (hm : ∀ c ∈ m, nfkcChar c = c) :
    nfkcNormalize (String.mk m) = String.mk m := by
  show String.mk (m.map nfkcChar) = String.mk m
  congr 1
  have h1 : m.map nfkcChar = m.map id := List.map_congr_left (fun a ha => hm a ha)
  rw [h1, List.map_id]

theorem matchRoadNumAt_some (cs m : List Char) (h : matchRoadNumAt cs = some m) :
    ∃ run, m = run ++ ['号'] ∧ run ≠ [] ∧ ∀ c ∈ run, c.isDigit = true := by
  unfold matchRoadNumAt at h
  simp only at h
  by_cases hrun : (cs.takeWhile (fun c => c.isDigit)).isEmpty
  · rw [if_pos hrun] at h
    exact absurd h (by simp)
  · rw [if_neg hrun] at h
    cases hd : cs.drop (cs.takeWhile (fun c => c.isDigit)).length with
    | nil => rw [hd] at h; exact absurd h (by simp)
    | cons c rest =>
      rw [hd] at h
      replace h : (if c = '号'
          then some (cs.takeWhile (fun c => c.isDigit) ++ ['号'])
          else none) = some m := h
      by_cases hc : c = '号'
      · rw [if_pos hc] at h
        refine ⟨cs.takeWhile (fun c => c.isDigit), (Option.some.inj h).symm, ?_, ?_⟩
        · intro hnil
          rw [hnil] at hrun
          exact hrun rfl
        · intro d hd2
          have := List.mem_takeWhile_imp hd2
          simpa using this
      · rw [if_neg hc] at h
        exact absurd h (by simp)

theorem searchRoadNum_some : ∀ (cs m : List Char), searchRoadNum cs = some m →
    ∃ run, m = run ++ ['号'] ∧ run ≠ [] ∧ ∀ c ∈ run, c.isDigit = true
  | [], m, h => by exact absurd h (by simp [searchRoadNum])
  | c :: rest, m, h => by
    unfold searchRoadNum at h
    cases hm : matchRoadNumAt (c :: rest) with
    | some m' =>
      rw [hm] at h
      exact (Option.some.inj h) ▸ matchRoadNumAt_some (c :: rest) m' hm
    | none =>
      rw [hm] at h
      exact searchRoadNum_some rest m h

theorem takeWhile_all_append (p : Char → Bool) (l : List Char) (x : Char)
    (hl : ∀ c ∈ l, p c = true) (hx : p x = false) :
    (l ++ [x]).takeWhile p = l := by
  induction l with
  | nil => simp [List.takeWhile, hx]
  | cons c cs ih =>
    have hc : p c = true := hl c (by simp)
    simp only [List.cons_append, List.takeWhile_cons, hc, if_true]
    rw [ih (fun d hd => hl d (by simp [hd]))]

theorem matchRoadNumAt_roadnum (run : List Char) (hne : run ≠ [])
    (hd : ∀ c ∈ run, c.isDigit = true) :
    matchRoadNumAt (run ++ ['号']) = some (run ++ ['号']) := by
  unfold matchRoadNumAt
  have htw : (run ++ ['号']).takeWhile (fun c => c.isDigit) = run :=
    takeWhile_all_append _ run '号' hd (by decide)
  rw [htw]
  have hre : (run ++ ['号']).isEmpty = false := by
    cases run with
    | nil => exact absurd rfl hne
    | cons a as => rfl
  have hrune : run.isEmpty = false := by
    cases run with
    | nil => exact absurd rfl hne
    | cons a as => rfl
  simp only [hrune, Bool.false_eq_true, if_false, List.drop_left]
  simp

theorem searchRoadNum_roadnum (run : List Char) (hne : run ≠ [])
    (hd : ∀ c ∈ run, c.isDigit = true) :
    searchRoadNum (run ++ ['号']) = some (run ++ ['号']) := by
  cases run with
  | nil => exact absurd rfl hne
  | cons c cs =>
    show searchRoadNum (c :: (cs ++ ['号'])) = _
    unfold searchRoadNum
    rw [show c :: (cs ++ ['号']) = (c :: cs) ++ ['号'] from rfl]
    rw [matchRoadNumAt_roadnum (c :: cs) hne hd]

theorem clean_road_names_eq_some (s : String) (m : List Char)
    (h : searchRoadNum (nfkcNormalize s).toList = some m) :
    clean_road_names s = String.mk m := by
  unfold clean_road_names
  simp only [h]

theorem clean_road_names_eq_none (s : String)
    (h : searchRoadNum (nfkcNormalize s).toList = none) :
    clean_road_names s = nfkcNormalize s := by
  unfold clean_road_names
  simp only [h]

/-- C9: `clean_road_names` is idempotent — normalizing an
already-normalized road name yields the same value. -/
theorem clean_road_names_idempotent (s : String) :
    clean_road_names (clean_road_names s) = clean_road_names s := by
  cases h : searchRoadNum (nfkcNormalize s).toList with
  | none =>
    rw [clean_road_names_eq_none s h]
    have h2 : searchRoadNum (nfkcNormalize (nfkcNormalize s)).toList = none := by
      rw [nfkcNormalize_idem]; exact h
    rw [clean_road_names_eq_none _ h2, nfkcNormalize_idem]
  | some m =>
    rw [clean_road_names_eq_some s m h]
    obtain ⟨run, hm, hne, hdig⟩ := searchRoadNum_some _ _ h
    subst hm
    have hfix : ∀ c ∈ run ++ ['号'], nfkcChar c = c := by
      intro c hc
      rcases List.mem_append.mp hc with hc | hc
      · exact nfkcChar_of_isDigit c (hdig c hc)
      · simp only [List.mem_singleton] at hc
        subst hc
        decide
    have h2 : searchRoadNum (nfkcNormalize (String.mk (run ++ ['号']))).toList
        = some (run ++ ['号']) := by
      rw [nfkcNormalize_fixed _ hfix]
      exact searchRoadNum_roadnum run hne hdig
    rw [clean_road_names_eq_some _ _ h2]

/-! ### Matching against the traffic feed (C1) -/

theorem collectRoadNames_eq_map :
    ∀ l : List Feature, (∀ f ∈ l, (getProp f "r").isSome) →
      collectRoadNames l = some (l.map (fun f => (getProp f "r").getD ""))
  | [], _ => rfl
  | f :: fs, h => by
    obtain ⟨r, hr⟩ := Option.isSome_iff_exists.mp (h f (List.mem_cons_self f fs))
    have ih := collectRoadNames_eq_map fs (fun x hx => h x (List.mem_cons_of_mem f hx))
    unfold collectRoadNames
    rw [hr, ih]
    simp [hr]

theorem zip_map_filter {α β : Type} (g : α → β) (p : β → Bool) :
    ∀ l : List α,
      (((l.zip (l.map g)).filter (fun x => p x.2)).map (fun x => x.1))
        = l.filter (fun a => p (g a))
  | [] => rfl
  | a :: as => by
    simp only [List.map_cons, List.zip_cons_cons, List.filter_cons]
    cases hp : p (g a) <;> simp [hp, zip_map_filter g p as]

/-- C1 amended: for features that all carry a `properties.r` field, the
matcher returns exactly the feed features whose `clean_road_names`-
normalized road-name field is string-equal to the canonical road number
*as given* — the normalization is applied to the feed side only, and the
comparison is exact equality, not fuzzy or substring matching. -/
theorem filter_traffic_status_by_road_spec (road_number : String)
    (features : List Feature) (h : ∀ f ∈ features, (getProp f "r").isSome) :
    filter_traffic_status_by_road road_number features =
      .ok (features.filter
        (fun f => road_number = clean_road_names ((getProp f "r").getD ""))) := by
  unfold filter_traffic_status_by_road
  rw [collectRoadNames_eq_map features h]
  simp only [List.map_map]
  exact congrArg Except.ok
    (zip_map_filter (fun f => clean_road_names ((getProp f "r").getD ""))
      (fun v => road_number = v) features)

/-- Witness for the C1 amended theorem: canonical number "123号" matches
the feature whose feed name normalizes to "123号" and not the one
normalizing to "124号". -/
theorem filter_traffic_status_by_road_spec_witness :
    filter_traffic_status_by_road "123号"
        [⟨[("r", some "国道123号")]⟩, ⟨[("r", some "124号")]⟩] =
      .ok ([⟨[("r", some "国道123号")]⟩, ⟨[("r", some "124号")]⟩].filter
        (fun f => "123号" = clean_road_names ((getProp f "r").getD ""))) :=
  filter_traffic_status_by_road_spec "123号"
    [⟨[("r", some "国道123号")]⟩, ⟨[("r", some "124号")]⟩]
    (by intro f hf; fin_cases hf <;> rfl)

/-- C1 counterexample: the canonical road number is *not* normalized
before the comparison. "１２３号" (full-width) and "123号" have the same
normalization, so under the claim the feature would be matched, but the
matcher compares the raw canonical number and returns no features. -/
theorem filter_traffic_status_by_road_counterexample :
    clean_road_names "１２３号" = clean_road_names "123号" ∧
      filter_traffic_status_by_road "１２３号" [⟨[("r", some "123号")]⟩] =
        .ok [] := by
  constructor
  · rfl
  · rfl

/-! ### Road-number lookup (C4) -/

/-- C4 (code bug): when the map-data service returns a first element
without a `tags.ref` tag, `get_osm_road_info` does not fall back to the
original road name — `pydash.map_` produces `[None, ...]`, the truthiness
test sees a non-empty list, and the f-string renders the absent tag as
the literal string "None", yielding "None号". This contradicts the
function's own docstring ("If the road number is not available, the road
name is returned as the value"). -/
theorem get_osm_road_info_absent_tag :
    get_osm_road_info "Chuo Dori" [⟨none⟩] = ("Chuo Dori", "None号") := rfl

/-! ### Per-region traffic fetch (C2) -/

/-- C2 amended: a traffic-feed failure for any region in the list makes
the whole fetch loop raise, and the pipeline stage returns an error for
every choice of road numbers — no results are processed or combined for
the other regions (no per-region isolation exists). -/
theorem fetch_traffic_failure_aborts_all
    (fetch : String → Except String (List Feature)) :
    ∀ (prefs : List String) (p : String), p ∈ prefs →
      (∃ e, fetch (stripRegionCode p) = .error e) →
      (∃ e, fetch_traffic_data fetch prefs = .error e) ∧
        ∀ road_numbers, ∃ e,
          get_closed_roads_core fetch road_numbers prefs = .error e
  | [], p, hp, _ => absurd hp (List.not_mem_nil p)
  | q :: rest, p, hp, hfail => by
    have habort : ∃ e, fetch_traffic_data fetch (q :: rest) = .error e := by
      cases hq : fetch (stripRegionCode q) with
      | error e =>
        exact ⟨e, by unfold fetch_traffic_data; rw [hq]⟩
      | ok d =>
        have hpr : p ∈ rest := by
          rcases List.mem_cons.mp hp with rfl | hmem
          · obtain ⟨e, he⟩ := hfail
            rw [hq] at he
            exact absurd he (by simp)
          · exact hmem
        obtain ⟨e, he⟩ :=
          (fetch_traffic_failure_aborts_all fetch rest p hpr hfail).1
        exact ⟨e, by unfold fetch_traffic_data; rw [hq, he]⟩
    refine ⟨habort, ?_⟩
    intro road_numbers
    obtain ⟨e, he⟩ := habort
    exact ⟨e, by unfold get_closed_roads_core; rw [he]⟩

/-- Witness for the C2 amended theorem at concrete inputs. -/
theorem fetch_traffic_failure_aborts_all_witness :
    (∃ e, fetch_traffic_data
        (fun code => if code = "13" then .ok [] else .error "HTTP 404")
        ["JP-13", "JP-14"] = .error e) ∧
      ∀ road_numbers, ∃ e, get_closed_roads_core
        (fun code => if code = "13" then .ok [] else .error "HTTP 404")
        road_numbers ["JP-13", "JP-14"] = .error e :=
  fetch_traffic_failure_aborts_all
    (fun code => if code = "13" then .ok [] else .error "HTTP 404")
    ["JP-13", "JP-14"] "JP-14" (by decide) ⟨"HTTP 404", by rfl⟩

/-- C2 counterexample: with region "JP-13" succeeding (carrying one
matched complete closure) and "JP-14" failing, the pipeline stage
produces no output at all — the failure of one region prevents the
processing and combining of the other region's results. -/
theorem per_region_isolation_counterexample :
    get_closed_roads_core
        (fun code =>
          if code = "13" then .ok [⟨[("r", some "123号"), ("rd", some "通行止")]⟩]
          else .error "HTTPStatusError: Request failed with status code: 404")
        [("Road A", "123号")] ["JP-13", "JP-14"] =
      .error "HTTPStatusError: Request failed with status code: 404" := rfl

/-! ### Closure classifier (C6, C10) -/

theorem marker_implies_some (o : Option String) :
    ((o == some completeClosureMarker) && o.isSome) = (o == some completeClosureMarker) := by
  cases o with
  | none => rfl
  | some v => exact Bool.and_true _

theorem rows_isEmpty_iff (records : List Feature) :
    (records.map (fun f => transformProps f.properties)).isEmpty = true ↔
      records = [] := by
  rw [List.isEmpty_iff, List.map_eq_nil_iff]

theorem rows_all_empty_iff (records : List Feature) :
    ((records.map (fun f => transformProps f.properties)).all
      (fun r => r.isEmpty)) = true ↔
      ∀ f ∈ records, transformProps f.properties = [] := by
  rw [List.all_eq_true]
  constructor
  · intro h f hf
    exact List.isEmpty_iff.mp
      (h (transformProps f.properties) (List.mem_map_of_mem _ hf))
  · intro h r hr
    obtain ⟨f, hf, rfl⟩ := List.mem_map.mp hr
    exact List.isEmpty_iff.mpr (h f hf)

theorem rows_any_col_iff (records : List Feature) :
    ((records.map (fun f => transformProps f.properties)).any
      (fun r => hasCol r "restriction_description")) = true ↔
      ∃ f ∈ records, hasCol (transformProps f.properties)
        "restriction_description" = true := by
  rw [List.any_eq_true]
  constructor
  · rintro ⟨r, hr, hcol⟩
    obtain ⟨f, hf, rfl⟩ := List.mem_map.mp hr
    exact ⟨f, hf, hcol⟩
  · rintro ⟨f, hf, hcol⟩
    exact ⟨transformProps f.properties, List.mem_map_of_mem _ hf, hcol⟩

/-- C6 amended: provided the input is empty or at least one record's
properties carry the restriction-description key ("rd"), the classifier
returns the pair of tables in which the full table holds exactly the rows
whose `restriction_description` is non-null and the complete-closures
table holds exactly the rows whose `restriction_description` equals
"通行止" (any other non-null description appears only in the full table);
an empty input yields two empty tables without raising. For a non-empty
input in which no record carries the key (but some record keeps another
column), the classifier raises instead of returning tables. -/
theorem filter_closed_roads_spec (records : List Feature)
    (h : records = [] ∨ ∃ f ∈ records,
      hasCol (transformProps f.properties) "restriction_description" = true) :
    filter_closed_roads records = .ok
      ((records.map (fun f => transformProps f.properties)).filter
          (fun r => (getCell r "restriction_description").isSome),
       (records.map (fun f => transformProps f.properties)).filter
          (fun r => getCell r "restriction_description" == some completeClosureMarker)) := by
  rcases h with rfl | ⟨f, hf, hcol⟩
  · rfl
  · have hrne : transformProps f.properties ≠ [] := by
      intro hnil
      rw [hnil] at hcol
      exact absurd hcol (by decide)
    have hcond1 : ((records.map (fun f => transformProps f.properties)).isEmpty ||
        (records.map (fun f => transformProps f.properties)).all
          (fun r => r.isEmpty)) = false := by
      have h1 : (records.map (fun f => transformProps f.properties)).isEmpty = false := by
        rw [Bool.eq_false_iff]
        intro ht
        have := (rows_isEmpty_iff records).mp ht
        subst this
        exact absurd hf (List.not_mem_nil f)
      have h2 : ((records.map (fun f => transformProps f.properties)).all
          (fun r => r.isEmpty)) = false := by
        rw [Bool.eq_false_iff]
        intro ht
        exact hrne ((rows_all_empty_iff records).mp ht f hf)
      rw [h1, h2]
      rfl
    have hcond2 : ((records.map (fun f => transformProps f.properties)).any
        (fun r => hasCol r "restriction_description")) = true :=
      (rows_any_col_iff records).mpr ⟨f, hf, hcol⟩
    unfold filter_closed_roads
    rw [if_neg (by rw [hcond1]; exact Bool.false_ne_true), if_pos hcond2]
    congr 1
    congr 1
    rw [List.filter_filter]
    exact List.filter_congr
      (fun r _ => marker_implies_some (getCell r "restriction_description"))

/-- Witness for the C6 amended theorem: a complete closure, a partial
restriction, and a null-description record. -/
theorem filter_closed_roads_spec_witness :
    filter_closed_roads
        [⟨[("rd", some "通行止")]⟩, ⟨[("rd", some "片側交互通行")]⟩, ⟨[("rd", none)]⟩] = .ok
      (([⟨[("rd", some "通行止")]⟩, ⟨[("rd", some "片側交互通行")]⟩,
          (⟨[("rd", none)]⟩ : Feature)].map (fun f => transformProps f.properties)).filter
          (fun r => (getCell r "restriction_description").isSome),
       ([⟨[("rd", some "通行止")]⟩, ⟨[("rd", some "片側交互通行")]⟩,
          (⟨[("rd", none)]⟩ : Feature)].map (fun f => transformProps f.properties)).filter
          (fun r => getCell r "restriction_description" == some completeClosureMarker)) :=
  filter_closed_roads_spec
    [⟨[("rd", some "通行止")]⟩, ⟨[("rd", some "片側交互通行")]⟩, ⟨[("rd", none)]⟩]
    (Or.inr ⟨⟨[("rd", some "通行止")]⟩, by simp, by rfl⟩)

/-- C6 counterexample: on a non-empty record list in which no record has
the "rd" key but a surviving column exists, the classifier raises a
pandas `KeyError` instead of returning a pair of tables. -/
theorem filter_closed_roads_counterexample :
    filter_closed_roads [⟨[("c", some "roadwork")]⟩] =
      .error "KeyError: restriction_description" := rfl

/-- C10 amended: the classifier raises (missing-column access) exactly
when the input is non-empty, at least one record keeps a non-dropped
property key, and no record carries the restriction-description key.
In particular a non-empty input whose records' properties all drop away
(e.g. all empty) produces a DataFrame of shape (n, 0), which pandas
reports as empty, so the classifier returns two empty tables instead of
raising. -/
theorem filter_closed_roads_error_iff (records : List Feature) :
    (∃ e, filter_closed_roads records = .error e) ↔
      records ≠ [] ∧
        (∃ f ∈ records, transformProps f.properties ≠ []) ∧
        (∀ f ∈ records, hasCol (transformProps f.properties)
          "restriction_description" = false) := by
  unfold filter_closed_roads
  by_cases h1 : ((records.map (fun f => transformProps f.properties)).isEmpty ||
      (records.map (fun f => transformProps f.properties)).all
        (fun r => r.isEmpty)) = true
  · rw [if_pos h1]
    constructor
    · rintro ⟨e, he⟩
      exact Except.noConfusion he
    · rintro ⟨hne, ⟨f, hf, hfne⟩, _⟩
      rw [Bool.or_eq_true] at h1
      rcases h1 with h1 | h1
      · exact absurd ((rows_isEmpty_iff records).mp h1) hne
      · exact absurd ((rows_all_empty_iff records).mp h1 f hf) hfne
  · rw [if_neg h1]
    by_cases h2 : ((records.map (fun f => transformProps f.properties)).any
        (fun r => hasCol r "restriction_description")) = true
    · rw [if_pos h2]
      constructor
      · rintro ⟨e, he⟩
        exact Except.noConfusion he
      · rintro ⟨_, _, hall⟩
        obtain ⟨f, hf, hcol⟩ := (rows_any_col_iff records).mp h2
        rw [hall f hf] at hcol
        exact absurd hcol (by decide)
    · rw [if_neg h2]
      constructor
      · intro _
        refine ⟨?_, ?_, ?_⟩
        · intro hnil
          subst hnil
          exact h1 rfl
        · by_contra hno
          push_neg at hno
          apply h1
          rw [Bool.or_eq_true]
          right
          exact (rows_all_empty_iff records).mpr hno
        · intro f hf
          rw [Bool.eq_false_iff]
          intro hcol
          exact h2 ((rows_any_col_iff records).mpr ⟨f, hf, hcol⟩)
      · intro _
        exact ⟨"KeyError: restriction_description", rfl⟩

/-- C10 counterexample: a non-empty input in which no record carries the
"rd" key does *not* always raise — a single record with an empty
properties object yields a (1, 0)-shaped, hence "empty", DataFrame and
the classifier returns two empty tables normally. -/
theorem filter_closed_roads_empty_props_counterexample :
    filter_closed_roads [⟨[]⟩] = .ok ([], []) := rfl

/-! ### Geocode cache (C5) -/

/-- C5 counterexample: two lookups for the identical coordinate pair
issued concurrently during the fan-out (`asyncio.gather` over duplicate
coordinates, empty cache, well within the TTL window) issue two
underlying network fetches, not at most one: each task misses the cache
before either write lands. -/
theorem geocode_cache_concurrent_counterexample :
    (get_multiple_road_addresses (fun _ => ⟨some [("road", "X")]⟩) ⟨[], 0⟩
        [(35, 139), (35, 139)] 0).2.fetchCount = 2 ∧
      1 < (get_multiple_road_addresses (fun _ => ⟨some [("road", "X")]⟩) ⟨[], 0⟩
        [(35, 139), (35, 139)] 0).2.fetchCount := by
  constructor
  · rfl
  · rw [show (get_multiple_road_addresses (fun _ => ⟨some [("road", "X")]⟩) ⟨[], 0⟩
        [(35, 139), (35, 139)] 0).2.fetchCount = 2 from rfl]
    omega

/-- C5 amended: from an empty cache, (a) two lookups for the identical
pair issued concurrently in the fan-out each issue a network fetch (the
cache is only written after a fetch completes); (b) two *sequential*
lookups for the identical pair cause exactly one fetch when the second
falls within the 24-hour TTL window — provided the fetched address
object is non-empty, since a cached empty address is falsy and is
re-fetched — and a second lookup at or after TTL expiry issues a new
fetch. -/
theorem geocode_cache_behaviour (fetchFn : Int × Int → AddressData)
    (p : Int × Int) (t1 t2 : Nat)
    (haddr : (fetchFn p).address.getD [] ≠ []) (ht : t1 ≤ t2) :
    (get_multiple_road_addresses fetchFn ⟨[], 0⟩ [p, p] t1).2.fetchCount = 2
    ∧ (get_road_address fetchFn
          (get_road_address fetchFn ⟨[], 0⟩ p t1).2 p t2).2.fetchCount
        = if t2 < t1 + cacheTTL then 1 else 2 := by
  constructor
  · rfl
  · have hst1 : (get_road_address fetchFn ⟨[], 0⟩ p t1).2 =
        ⟨[(p, t1, (fetchFn p).address.getD [])], 1⟩ := rfl
    rw [hst1]
    have hfind : List.find? (fun e => e.1 = p)
        [(p, t1, (fetchFn p).address.getD [])]
        = some (p, t1, (fetchFn p).address.getD []) := by
      simp [List.find?]
    have hcg : cacheGet ⟨[(p, t1, (fetchFn p).address.getD [])], 1⟩ p t2 =
        if t2 < t1 + cacheTTL then some ((fetchFn p).address.getD []) else none := by
      unfold cacheGet
      rw [hfind]
    have hie : ((fetchFn p).address.getD []).isEmpty = false := by
      cases hx : (fetchFn p).address.getD [] with
      | nil => exact absurd hx haddr
      | cons a as => rfl
    by_cases hTTL : t2 < t1 + cacheTTL
    · rw [if_pos hTTL]
      have hsome : cacheGet ⟨[(p, t1, (fetchFn p).address.getD [])], 1⟩ p t2 =
          some ((fetchFn p).address.getD []) := by rw [hcg, if_pos hTTL]
      unfold get_road_address
      rw [hsome]
      simp only [hie, Bool.false_eq_true, if_false]
    · rw [if_neg hTTL]
      have hnone : cacheGet ⟨[(p, t1, (fetchFn p).address.getD [])], 1⟩ p t2 =
          none := by rw [hcg, if_neg hTTL]
      unfold get_road_address
      rw [hnone]
      rfl

/-- Witness for the C5 amended theorem at concrete inputs. -/
theorem geocode_cache_behaviour_witness :
    (get_multiple_road_addresses (fun _ => ⟨some [("road", "X")]⟩) ⟨[], 0⟩
        [(35, 139), (35, 139)] 0).2.fetchCount = 2
    ∧ (get_road_address (fun _ => ⟨some [("road", "X")]⟩)
          (get_road_address (fun _ => ⟨some [("road", "X")]⟩) ⟨[], 0⟩
            (35, 139) 0).2 (35, 139) 1).2.fetchCount
        = if 1 < 0 + cacheTTL then 1 else 2 :=
  geocode_cache_behaviour (fun _ => ⟨some [("road", "X")]⟩) (35, 139) 0 1
    (by decide) (by decide)

/-! ### Route visualizer scan (C7) -/

theorem scanLoop_skip {P : Type} (near : P → P → Bool) (st0 : P)
    (p : P) (rest : List P) (e : P) (acc : List P)
    (h1 : near st0 p = false) (h2 : near e p = false) :
    scanLoop near st0 (p :: rest) false e acc =
      scanLoop near st0 rest false e acc := by
  simp [scanLoop, h1, h2]

theorem scanLoop_start {P : Type} (near : P → P → Bool) (st0 : P)
    (s0 : P) (rest : List P) (en0 : P) (acc : List P)
    (h1 : near st0 s0 = true) (h2 : near en0 s0 = false) :
    scanLoop near st0 (s0 :: rest) false en0 acc =
      scanLoop near st0 rest true en0 (acc ++ [s0]) := by
  simp [scanLoop, h1, h2]

theorem scanLoop_collect {P : Type} (near : P → P → Bool) (st0 : P)
    (p : P) (rest : List P) (e : P) (acc : List P) :
    scanLoop near st0 (p :: rest) true e acc =
      if near e p then (acc ++ [p], true)
      else scanLoop near st0 rest true e (acc ++ [p]) := by
  simp [scanLoop]

theorem scanLoop_sweep {P : Type} (near : P → P → Bool) (st0 en0 e0 : P)
    (post : List P) (he0 : near en0 e0 = true) :
    ∀ (mid : List P) (acc : List P), (∀ p ∈ mid, near en0 p = false) →
      scanLoop near st0 (mid ++ e0 :: post) true en0 acc
        = (acc ++ mid ++ [e0], true)
  | [], acc, _ => by
    rw [List.nil_append, scanLoop_collect, if_pos he0]
    simp
  | m :: mid', acc, hmid => by
    have hm : near en0 m = false := hmid m (List.mem_cons_self m mid')
    rw [List.cons_append, scanLoop_collect, hm]
    simp only [Bool.false_eq_true, if_false]
    rw [scanLoop_sweep near st0 en0 e0 post he0 mid' (acc ++ [m])
      (fun q hq => hmid q (List.mem_cons_of_mem m hq))]
    simp

theorem scanLoop_prefix_skip {P : Type} (near : P → P → Bool) (st0 en0 : P) :
    ∀ (pre rest : List P) (acc : List P),
      (∀ p ∈ pre, near st0 p = false ∧ near en0 p = false) →
      scanLoop near st0 (pre ++ rest) false en0 acc
        = scanLoop near st0 rest false en0 acc
  | [], rest, acc, _ => rfl
  | q :: pre', rest, acc, hpre => by
    have hq := hpre q (List.mem_cons_self q pre')
    rw [List.cons_append, scanLoop_skip near st0 q (pre' ++ rest) en0 acc hq.1 hq.2]
    exact scanLoop_prefix_skip near st0 en0 pre' rest acc
      (fun r hr => hpre r (List.mem_cons_of_mem q hr))

theorem scanLoop_no_end {P : Type} (near : P → P → Bool) (st0 en0 : P) :
    ∀ (coords : List P) (sf : Bool) (acc : List P),
      (∀ p ∈ coords, near en0 p = false) →
      (scanLoop near st0 coords sf en0 acc).2 = false
  | [], sf, acc, _ => by cases sf <;> rfl
  | p :: rest, sf, acc, h => by
    have hp : near en0 p = false := h p (List.mem_cons_self p rest)
    have hrest : ∀ q ∈ rest, near en0 q = false :=
      fun q hq => h q (List.mem_cons_of_mem p hq)
    cases sf with
    | true =>
      rw [scanLoop_collect, hp]
      simp only [Bool.false_eq_true, if_false]
      exact scanLoop_no_end near st0 en0 rest true (acc ++ [p]) hrest
    | false =>
      cases hs : near st0 p with
      | false =>
        rw [scanLoop_skip near st0 p rest en0 acc hs hp]
        exact scanLoop_no_end near st0 en0 rest false acc hrest
      | true =>
        rw [scanLoop_start near st0 p rest en0 acc hs hp]
        exact scanLoop_no_end near st0 en0 rest true (acc ++ [p]) hrest

/-- C7: for a route decomposed as `pre ++ s0 :: mid ++ e0 :: post` where
no point of `pre` is within threshold of either endpoint, `s0` is the
first point within threshold of the section's start (and not of its
end), no point of `mid` is within threshold of the end, and `e0` is the
first subsequent point within threshold of the end, the single forward
scan emits exactly one highlight trace consisting of the contiguous
route points `s0 :: mid ++ [e0]` (inclusive at both ends); and for any
route in which no point is ever within threshold of the section's end,
no highlight trace is emitted for that section. -/
theorem plot_closed_traces_spec {P : Type} (near : P → P → Bool)
    (st0 en0 s0 e0 : P) (pre mid post : List P)
    (hpre : ∀ p ∈ pre, near st0 p = false ∧ near en0 p = false)
    (hs0 : near st0 s0 = true) (hs0e : near en0 s0 = false)
    (hmid : ∀ p ∈ mid, near en0 p = false)
    (he0 : near en0 e0 = true) :
    plot_closed_traces near (pre ++ s0 :: (mid ++ e0 :: post)) [[st0, en0]]
        = [s0 :: (mid ++ [e0])]
    ∧ ∀ coords : List P, (∀ p ∈ coords, near en0 p = false) →
        plot_closed_traces near coords [[st0, en0]] = [] := by
  constructor
  · have hscan : scanLoop near st0 (pre ++ s0 :: (mid ++ e0 :: post)) false en0 []
        = (s0 :: (mid ++ [e0]), true) := by
      rw [scanLoop_prefix_skip near st0 en0 pre (s0 :: (mid ++ e0 :: post)) [] hpre]
      rw [scanLoop_start near st0 s0 (mid ++ e0 :: post) en0 [] hs0 hs0e]
      simp only [List.nil_append]
      rw [scanLoop_sweep near st0 en0 e0 post he0 mid [s0] hmid]
      simp
    unfold plot_closed_traces
    simp only [List.filter, List.filterMap, hscan]
    rfl
  · intro coords hco
    have hscan2 : (scanLoop near st0 coords false en0 []).2 = false :=
      scanLoop_no_end near st0 en0 coords false [] hco
    unfold plot_closed_traces
    simp only [List.filter, List.filterMap]
    rw [hscan2]
    rfl

/-- Witness for C7: the claim's own concrete scenario — a 5-point route
whose 2nd point is within threshold of the closure's start and whose 4th
point is within threshold of its end; the highlighted sub-path is points
2 through 4 inclusive, and routes never near the end yield no trace. -/
theorem plot_closed_traces_spec_witness :
    plot_closed_traces
        (fun a p => (a == 100 && p == 1) || (a == 200 && p == 3))
        ([0] ++ 1 :: ([2] ++ 3 :: [4])) [[100, 200]]
        = [1 :: ([2] ++ [3])]
    ∧ ∀ coords : List Nat,
        (∀ p ∈ coords,
          ((100 : Nat) == 200 && p == 1 || (200 : Nat) == 200 && p == 3) = false) →
        plot_closed_traces
          (fun a p => (a == 100 && p == 1) || (a == 200 && p == 3))
          coords [[100, 200]] = [] := by
  have h := plot_closed_traces_spec
    (fun a p => (a == 100 && p == 1) || (a == 200 && p == 3))
    100 200 1 3 [0] [2] [4]
    (by decide) (by decide) (by decide) (by decide) (by decide)
  exact h

end GpxRouteStatus
